import Mathlib

/-!
A verification development for the registration-form automation repository
(`page_objects/registration_page.py`, `tests/test_registration.py`).

The browser driver is modelled as an explicit environment: a type-ahead
dropdown control is a function from the typed probe letter to the list of
option texts that become visible; interactions performed by the page object
are recorded as an explicit event trace.  Python sets are modelled as
duplicate-free lists, Python `sorted` as insertion sort by the code-point
lexicographic order on strings, and Python dictionaries (with distinct keys)
as association lists in insertion order.
-/

namespace SDET

/-- The probing alphabet set by `load_elements`:
`self.alphabet = "abcdefghijklmnopqrstuvwxyz"`. -/
def alphabet : String := "abcdefghijklmnopqrstuvwxyz"

/-- One observable interaction of the scanner with the browser driver. -/
inductive DriverEvent where
  | sendKeys (letter : Char)
  | readOptions (texts : List String)
  | clear
deriving DecidableEq, Repr

/-- Python set update `res.update(xs)`, modelled on duplicate-free lists:
each new element is inserted unless already present. -/
def pySetUpdate (res new : List String) : List String :=
  new.foldl (fun r x => if x ∈ r then r else r ++ [x]) res

/-- Code-point lexicographic comparison of character lists, the order used
by Python `sorted` on strings. -/
def pyStrLeAux : List Char → List Char → Bool
  | [], _ => true
  | _ :: _, [] => false
  | a :: as, b :: bs =>
    if a.toNat < b.toNat then true
    else if b.toNat < a.toNat then false
    else pyStrLeAux as bs

/-- Code-point lexicographic comparison of strings. -/
def pyStrLe (a b : String) : Bool :=
  pyStrLeAux a.toList b.toList

/-- The propositional form of `pyStrLe`. -/
def pyLe (a b : String) : Prop :=
  pyStrLe a b = true

instance : DecidableRel pyLe := fun a b =>
  inferInstanceAs (Decidable (pyStrLe a b = true))

theorem pyStrLeAux_total (as bs : List Char) :
    pyStrLeAux as bs = true ∨ pyStrLeAux bs as = true := by
  induction as generalizing bs with
  | nil => left; rfl
  | cons a as ih =>
    cases bs with
    | nil => right; rfl
    | cons b bs =>
      rcases Nat.lt_trichotomy a.toNat b.toNat with h | h | h
      · left; simp [pyStrLeAux, h]
      · rcases ih bs with h1 | h1
        · left; simp [pyStrLeAux, h, h1]
        · right; simp [pyStrLeAux, h.symm, h1]
      · right; simp [pyStrLeAux, h]

theorem pyStrLeAux_trans (as bs cs : List Char) (h1 : pyStrLeAux as bs = true)
    (h2 : pyStrLeAux bs cs = true) : pyStrLeAux as cs = true := by
  induction as generalizing bs cs with
  | nil => rfl
  | cons a as ih =>
    cases bs with
    | nil => simp [pyStrLeAux] at h1
    | cons b bs =>
      cases cs with
      | nil => simp [pyStrLeAux] at h2
      | cons c cs =>
        simp only [pyStrLeAux] at h1 h2 ⊢
        split at h1
        · rename_i hab
          split
          · rfl
          · rename_i hac
            split
            · rename_i hca
              exfalso
              split at h2
              · omega
              · split at h2
                · simp at h2
                · omega
            · exfalso
              split at h2
              · omega
              · split at h2
                · simp at h2
                · omega
        · split at h1
          · simp at h1
          · rename_i hba hab
            split at h2
            · rename_i hbc
              simp [show a.toNat < c.toNat by omega]
            · split at h2
              · simp at h2
              · rename_i hcb hbc
                simp only [show ¬a.toNat < c.toNat by omega, if_false,
                  show ¬c.toNat < a.toNat by omega]
                exact ih bs cs h1 h2

instance : IsTotal String pyLe :=
  ⟨fun a b => pyStrLeAux_total a.toList b.toList⟩

instance : IsTrans String pyLe :=
  ⟨fun a b c => pyStrLeAux_trans a.toList b.toList c.toList⟩

/-- Python `sorted` on strings: insertion sort by the code-point
lexicographic order (stability is irrelevant on duplicate-free input). -/
def pySorted (l : List String) : List String :=
  l.insertionSort pyLe

/-- Result of one run of the alphabet scan: the trace of driver
interactions and the returned (sorted) list of option texts. -/
structure ScrapeOut where
  events : List DriverEvent
  result : List String
deriving DecidableEq, Repr

/-- One iteration of the `for letter in self.alphabet` loop of
`scrape_dropdown_with_alphabet`: type the letter, read the visible options,
add them to the accumulated set if any are visible, clear the control. -/
def scrapeStep (optionsFor : Char → List String) (st : List DriverEvent × List String)
    (letter : Char) : List DriverEvent × List String :=
  let dropdown_options := optionsFor letter
  let res := if dropdown_options.isEmpty then st.2 else pySetUpdate st.2 dropdown_options
  (st.1 ++ [DriverEvent.sendKeys letter, DriverEvent.readOptions dropdown_options,
    DriverEvent.clear], res)

/-- `RegistrationFormPage.scrape_dropdown_with_alphabet`: probe the control
with every letter of `alphabet`, accumulate the visible option texts into a
set, and return `sorted(res)`.  The environment `optionsFor` gives the texts
of the options that become visible after a letter is typed into the
(previously cleared) control. -/
def scrape_dropdown_with_alphabet (optionsFor : Char → List String) : ScrapeOut :=
  let out := alphabet.toList.foldl (scrapeStep optionsFor) ([], [])
  ⟨out.1, pySorted out.2⟩

/-- `scrape_states_and_cities`: scan the state control, then for every
discovered state select it, scan the dependent city control, and clear the
state control; the dictionary (distinct keys, insertion order) is modelled
as an association list.  `cityOptions state` is the city dropdown
environment once `state` has been selected. -/
def scrape_states_and_cities (stateOptions : Char → List String)
    (cityOptions : String → Char → List String) : List (String × List String) :=
  let states := (scrape_dropdown_with_alphabet stateOptions).result
  states.foldl
    (fun state_city_map state =>
      state_city_map ++ [(state, (scrape_dropdown_with_alphabet (cityOptions state)).result)])
    []

/-- The `invalid_state_and_city` composite strategy: the state is drawn from
`one_of(sampled_from(states), none())` and the city from `st.none()`, which
only ever draws `None`. -/
def invalid_state_and_city (stateDraw : Option String) : Option String × Option String :=
  (stateDraw, none)

theorem mem_pySetUpdate (res new : List String) (x : String) :
    x ∈ pySetUpdate res new ↔ x ∈ res ∨ x ∈ new := by
  induction new generalizing res with
  | nil => simp [pySetUpdate]
  | cons a t ih =>
    have hstep : pySetUpdate res (a :: t)
        = pySetUpdate (if a ∈ res then res else res ++ [a]) t := rfl
    rw [hstep, ih]
    simp only [List.mem_cons]
    by_cases h : a ∈ res
    · simp only [if_pos h]
      constructor
      · rintro (hx | hx)
        · exact Or.inl hx
        · exact Or.inr (Or.inr hx)
      · rintro (hx | rfl | hx)
        · exact Or.inl hx
        · exact Or.inl h
        · exact Or.inr hx
    · simp only [if_neg h, List.mem_append, List.mem_singleton]
      constructor
      · rintro ((hx | rfl) | hx)
        · exact Or.inl hx
        · exact Or.inr (Or.inl rfl)
        · exact Or.inr (Or.inr hx)
      · rintro (hx | rfl | hx)
        · exact Or.inl (Or.inl hx)
        · exact Or.inl (Or.inr rfl)
        · exact Or.inr hx

theorem nodup_pySetUpdate (res new : List String) (h : res.Nodup) :
    (pySetUpdate res new).Nodup := by
  induction new generalizing res with
  | nil => exact h
  | cons a t ih =>
    have hstep : pySetUpdate res (a :: t)
        = pySetUpdate (if a ∈ res then res else res ++ [a]) t := rfl
    rw [hstep]
    by_cases hmem : a ∈ res
    · simpa [hmem] using ih res h
    · refine ih _ ?_
      simp [hmem, List.nodup_append, h]

theorem scrapeStep_eq (optionsFor : Char → List String) (evs : List DriverEvent)
    (res : List String) (c : Char) :
    scrapeStep optionsFor (evs, res) c =
      (evs ++ [DriverEvent.sendKeys c, DriverEvent.readOptions (optionsFor c),
          DriverEvent.clear],
        pySetUpdate res (optionsFor c)) := by
  unfold scrapeStep
  cases h : optionsFor c with
  | nil => simp [h, pySetUpdate]
  | cons a t => simp [h]

theorem scrape_foldl (optionsFor : Char → List String) (l : List Char)
    (evs : List DriverEvent) (res : List String) :
    l.foldl (scrapeStep optionsFor) (evs, res) =
      (evs ++ l.bind (fun c => [DriverEvent.sendKeys c,
          DriverEvent.readOptions (optionsFor c), DriverEvent.clear]),
        l.foldl (fun r c => pySetUpdate r (optionsFor c)) res) := by
  induction l generalizing evs res with
  | nil => simp
  | cons c t ih =>
    simp only [List.foldl_cons, scrapeStep_eq, List.cons_bind]
    rw [ih]
    simp

theorem mem_scrape_accum (optionsFor : Char → List String) (l : List Char)
    (res : List String) (x : String) :
    x ∈ l.foldl (fun r c => pySetUpdate r (optionsFor c)) res
      ↔ x ∈ res ∨ ∃ c ∈ l, x ∈ optionsFor c := by
  induction l generalizing res with
  | nil => simp
  | cons c t ih =>
    simp only [List.foldl_cons]
    rw [ih, mem_pySetUpdate]
    simp only [List.mem_cons]
    constructor
    · rintro ((h | h) | ⟨d, hd, hx⟩)
      · exact Or.inl h
      · exact Or.inr ⟨c, Or.inl rfl, h⟩
      · exact Or.inr ⟨d, Or.inr hd, hx⟩
    · rintro (h | ⟨d, (rfl | hd), hx⟩)
      · exact Or.inl (Or.inl h)
      · exact Or.inl (Or.inr hx)
      · exact Or.inr ⟨d, hd, hx⟩

theorem nodup_scrape_accum (optionsFor : Char → List String) (l : List Char)
    (res : List String) (h : res.Nodup) :
    (l.foldl (fun r c => pySetUpdate r (optionsFor c)) res).Nodup := by
  induction l generalizing res with
  | nil => exact h
  | cons c t ih => exact ih _ (nodup_pySetUpdate _ _ h)

theorem scrape_events_eq (optionsFor : Char → List String) :
    (scrape_dropdown_with_alphabet optionsFor).events =
      alphabet.toList.bind (fun c => [DriverEvent.sendKeys c,
        DriverEvent.readOptions (optionsFor c), DriverEvent.clear]) := by
  unfold scrape_dropdown_with_alphabet
  rw [scrape_foldl]
  simp

theorem scrape_result_eq (optionsFor : Char → List String) :
    (scrape_dropdown_with_alphabet optionsFor).result =
      pySorted (alphabet.toList.foldl (fun r c => pySetUpdate r (optionsFor c)) []) := by
  unfold scrape_dropdown_with_alphabet
  rw [scrape_foldl]

theorem mem_scrape_result (optionsFor : Char → List String) (x : String) :
    x ∈ (scrape_dropdown_with_alphabet optionsFor).result
      ↔ ∃ c ∈ alphabet.toList, x ∈ optionsFor c := by
  rw [scrape_result_eq, pySorted, (List.perm_insertionSort pyLe _).mem_iff,
    mem_scrape_accum]
  simp

theorem sorted_scrape_result (optionsFor : Char → List String) :
    (scrape_dropdown_with_alphabet optionsFor).result.Sorted pyLe := by
  rw [scrape_result_eq, pySorted]
  exact List.sorted_insertionSort pyLe _

theorem nodup_scrape_result (optionsFor : Char → List String) :
    (scrape_dropdown_with_alphabet optionsFor).result.Nodup := by
  rw [scrape_result_eq, pySorted]
  exact (List.perm_insertionSort pyLe _).nodup_iff.mpr
    (nodup_scrape_accum optionsFor _ _ List.nodup_nil)

theorem foldl_append_pairs {α β : Type} (f : α → β) (l : List α) (m : List (α × β)) :
    l.foldl (fun acc s => acc ++ [(s, f s)]) m = m ++ l.map (fun s => (s, f s)) := by
  induction l generalizing m with
  | nil => simp
  | cons a t ih => simp [ih]

theorem scrape_states_and_cities_eq (stateOptions : Char → List String)
    (cityOptions : String → Char → List String) :
    scrape_states_and_cities stateOptions cityOptions =
      (scrape_dropdown_with_alphabet stateOptions).result.map
        (fun s => (s, (scrape_dropdown_with_alphabet (cityOptions s)).result)) := by
  unfold scrape_states_and_cities
  rw [foldl_append_pairs]
  simp

/-- C1: for every type-ahead dropdown environment, the alphabet scan probes
exactly the 26 lowercase Latin letters in order; for each letter it types
the letter, reads the texts of the options that become visible, accumulates
them into a set, and clears the control before moving to the next letter;
the returned value is that accumulated set sorted lexicographically
(code-point order, duplicate-free), and if no options ever appear for any
letter the result is the empty sequence rather than an error. -/
theorem C1_scrape_dropdown_with_alphabet_spec (optionsFor : Char → List String) :
    (scrape_dropdown_with_alphabet optionsFor).events
        = ("abcdefghijklmnopqrstuvwxyz").toList.bind
            (fun c => [DriverEvent.sendKeys c, DriverEvent.readOptions (optionsFor c),
              DriverEvent.clear])
      ∧ alphabet.toList.length = 26
      ∧ (scrape_dropdown_with_alphabet optionsFor).result.Sorted pyLe
      ∧ (scrape_dropdown_with_alphabet optionsFor).result.Nodup
      ∧ (∀ s, s ∈ (scrape_dropdown_with_alphabet optionsFor).result
            ↔ ∃ c ∈ alphabet.toList, s ∈ optionsFor c)
      ∧ ((∀ c ∈ alphabet.toList, optionsFor c = []) →
            (scrape_dropdown_with_alphabet optionsFor).result = []) := by
  refine ⟨scrape_events_eq optionsFor, by decide, sorted_scrape_result optionsFor,
    nodup_scrape_result optionsFor, mem_scrape_result optionsFor, ?_⟩
  intro h
  rw [List.eq_nil_iff_forall_not_mem]
  intro s hs
  obtain ⟨c, hc, hsc⟩ := (mem_scrape_result optionsFor s).mp hs
  rw [h c hc] at hsc
  exact absurd hsc (List.not_mem_nil s)

/-- Witness for C1: at the environment where no options ever appear, the
scan concretely returns the empty list. -/
theorem C1_witness : (scrape_dropdown_with_alphabet (fun _ => [])).result = [] :=
  (C1_scrape_dropdown_with_alphabet_spec (fun _ => [])).2.2.2.2.2 (fun _ _ => rfl)

/-- A dropdown environment in which the options "Abc" and "abc", differing
only in letter case, surface under different probe letters. -/
def caseEnv : Char → List String := fun c =>
  if c = 'a' then ["Abc"] else if c = 'b' then ["abc"] else []

/-- C7 counterexample: the scanner does not case-normalize.  In the
environment `caseEnv` the returned domain contains both "Abc" and "abc",
two texts that are distinct but equal after lowercasing. -/
theorem C7_counterexample :
    (scrape_dropdown_with_alphabet caseEnv).result = ["Abc", "abc"]
      ∧ "Abc" ≠ "abc"
      ∧ "Abc".toList.map Char.toLower = "abc".toList.map Char.toLower := by
  refine ⟨by decide, by decide, by decide⟩

/-- C7 (amended): every discovered domain returned by the scanner is
deduplicated — no string occurs twice in the output — but it is not
case-normalized: texts differing only in letter case may both occur. -/
theorem C7_amended_scrape_nodup (optionsFor : Char → List String) :
    (scrape_dropdown_with_alphabet optionsFor).result.Nodup :=
  nodup_scrape_result optionsFor

/-- A state environment discovering exactly one state, "Alpha". -/
def oneStateEnv : Char → List String := fun c =>
  if c = 'a' then ["Alpha"] else []

/-- A city environment in which no city ever becomes visible. -/
def noCityEnv : String → Char → List String := fun _ _ => []

/-- C2 counterexample: a state whose scanned city sub-domain is empty is
NOT excluded from the mapping: with no cities visible, "Alpha" is still a
key of the returned state/city map, bound to the empty list. -/
theorem C2_counterexample :
    ("Alpha", ([] : List String)) ∈ scrape_states_and_cities oneStateEnv noCityEnv := by
  decide

/-- C2 (amended): the hierarchical scan maps every discovered state to its
scanned city sub-domain, which may be empty (states with an empty child
domain are not excluded); and every (state, city) pair produced by the
invalid state-and-city generator has city equal to null. -/
theorem C2_amended_states_and_cities (stateOptions : Char → List String)
    (cityOptions : String → Char → List String) :
    scrape_states_and_cities stateOptions cityOptions
        = (scrape_dropdown_with_alphabet stateOptions).result.map
            (fun s => (s, (scrape_dropdown_with_alphabet (cityOptions s)).result))
      ∧ ∀ stateDraw, (invalid_state_and_city stateDraw).2 = none :=
  ⟨scrape_states_and_cities_eq stateOptions cityOptions, fun _ => rfl⟩

/-- One interaction performed by `fill_form` on a control: the
`select_methods` dispatch table sends a field either to its role-specific
select method or to plain `send_keys` text entry. -/
inductive FillEvent (V : Type) where
  | select (field : String) (value : V)
  | sendKeys (field : String) (value : V)
deriving DecidableEq, Repr

/-- The field a fill interaction touched. -/
def FillEvent.field {V : Type} : FillEvent V → String
  | .select f _ => f
  | .sendKeys f _ => f

/-- The keys of the `select_methods` dictionary in `fill_form`. -/
def select_method_fields : List String :=
  ["gender", "date_of_birth", "subjects", "hobbies", "state", "city"]

/-- The page state seen by `fill_form`: the `fields_filled` flags and the
trace of interactions performed on the controls. -/
structure FormState (V : Type) where
  fields_filled : String → Bool
  log : List (FillEvent V)

/-- The body of the `for field, value in data.items()` loop of `fill_form`:
if the value is `None` or the field is already filled nothing happens;
otherwise the role-specific interaction is performed once and the
filled-flag is set. -/
def fill_one {V : Type} (page : FormState V) (field : String) (value : Option V) :
    FormState V :=
  match value with
  | none => page
  | some v =>
    if page.fields_filled field then page
    else
      { fields_filled := fun f => if f = field then true else page.fields_filled f,
        log := page.log ++
          [if field ∈ select_method_fields then FillEvent.select field v
            else FillEvent.sendKeys field v] }

/-- `fill_form`: iterate the test-case mapping (an association list with
distinct keys, in insertion order) over the page. -/
def fill_form {V : Type} (page : FormState V) (data : List (String × Option V)) :
    FormState V :=
  data.foldl (fun p e => fill_one p e.1 e.2) page

/-- How many logged interactions touched field `f`. -/
def countField {V : Type} (f : String) (log : List (FillEvent V)) : Nat :=
  log.countP (fun e => decide (e.field = f))

theorem fill_event_field {V : Type} (field : String) (v : V) :
    (if field ∈ select_method_fields then FillEvent.select field v
      else FillEvent.sendKeys field v).field = field := by
  split <;> rfl

theorem fill_one_some {V : Type} (page : FormState V) (field : String) (v : V) :
    fill_one page field (some v) =
      if page.fields_filled field then page
      else
        { fields_filled := fun f => if f = field then true else page.fields_filled f,
          log := page.log ++
            [if field ∈ select_method_fields then FillEvent.select field v
              else FillEvent.sendKeys field v] } := rfl

theorem countField_fill_one_ne {V : Type} (page : FormState V) (g : String)
    (v : Option V) (f : String) (hne : g ≠ f) :
    countField f (fill_one page g v).log = countField f page.log := by
  cases v with
  | none => rfl
  | some w =>
    rw [fill_one_some]
    by_cases hf : page.fields_filled g = true
    · rw [if_pos hf]
    · rw [if_neg hf]
      simp [countField, List.countP_append, List.countP_cons, fill_event_field, hne]

theorem countField_fill_one_le {V : Type} (page : FormState V) (g : String)
    (v : Option V) (f : String) :
    countField f (fill_one page g v).log ≤ countField f page.log + 1 := by
  cases v with
  | none => exact Nat.le_succ_of_le le_rfl
  | some w =>
    rw [fill_one_some]
    by_cases hf : page.fields_filled g = true
    · rw [if_pos hf]
      exact Nat.le_succ_of_le le_rfl
    · rw [if_neg hf]
      simp only [countField, List.countP_append, List.countP_cons, List.countP_nil,
        fill_event_field]
      split <;> omega

theorem countField_fill_form_not_mem {V : Type} (data : List (String × Option V))
    (page : FormState V) (f : String) (h : f ∉ data.map Prod.fst) :
    countField f (fill_form page data).log = countField f page.log := by
  induction data generalizing page with
  | nil => rfl
  | cons e t ih =>
    simp only [List.map_cons, List.mem_cons, not_or] at h
    have : fill_form page (e :: t) = fill_form (fill_one page e.1 e.2) t := rfl
    rw [this, ih _ h.2, countField_fill_one_ne _ _ _ _ (fun he => h.1 he.symm)]

theorem countField_fill_form_le {V : Type} (data : List (String × Option V))
    (page : FormState V) (f : String) (h0 : countField f page.log = 0)
    (hnd : (data.map Prod.fst).Nodup) :
    countField f (fill_form page data).log ≤ 1 := by
  induction data generalizing page with
  | nil => simpa [fill_form] using Nat.le_of_eq h0 |>.trans (Nat.le_succ 0)
  | cons e t ih =>
    have hstep : fill_form page (e :: t) = fill_form (fill_one page e.1 e.2) t := rfl
    rw [hstep]
    simp only [List.map_cons, List.nodup_cons] at hnd
    by_cases hef : e.1 = f
    · subst hef
      rw [countField_fill_form_not_mem _ _ _ hnd.1]
      have := countField_fill_one_le page e.1 e.2 e.1
      omega
    · exact ih (fill_one page e.1 e.2)
        (by rw [countField_fill_one_ne _ _ _ _ hef]; exact h0) hnd.2

/-- C4: for every field and value, `fill_form`'s per-field step is a no-op
(no interaction, flags unchanged) when the value is null or the field's
filled-flag is already set; otherwise it performs the field's role-specific
interaction exactly once (select-method dispatch for the dropdown-like
fields, plain keystroke entry otherwise) and sets the filled-flag; over a
whole `fill_form` run on a fresh trace with distinct field keys, no field
is interacted with more than once. -/
theorem C4_fill_form_spec {V : Type} :
    (∀ (page : FormState V) (f : String), fill_one page f none = page)
    ∧ (∀ (page : FormState V) (f : String) (v : V),
        page.fields_filled f = true → fill_one page f (some v) = page)
    ∧ (∀ (page : FormState V) (f : String) (v : V),
        page.fields_filled f = false →
          (fill_one page f (some v)).log
              = page.log ++ [if f ∈ select_method_fields then FillEvent.select f v
                  else FillEvent.sendKeys f v]
            ∧ (fill_one page f (some v)).fields_filled f = true
            ∧ ∀ g, g ≠ f → (fill_one page f (some v)).fields_filled g
                = page.fields_filled g)
    ∧ (∀ (filled0 : String → Bool) (data : List (String × Option V)) (f : String),
        (data.map Prod.fst).Nodup →
          countField f (fill_form ⟨filled0, []⟩ data).log ≤ 1) := by
  refine ⟨fun page f => rfl, ?_, ?_, ?_⟩
  · intro page f v h
    rw [fill_one_some, if_pos h]
  · intro page f v h
    rw [fill_one_some, if_neg (by simp [h])]
    refine ⟨rfl, by simp, ?_⟩
    intro g hg
    simp [hg]
  · intro filled0 data f hnd
    exact countField_fill_form_le data ⟨filled0, []⟩ f rfl hnd

/-- Witness for C4 at concrete inputs: an already-filled field is left
untouched, and a two-field fill touches the email control at most once. -/
theorem C4_witness :
    fill_one (⟨fun _ => true, []⟩ : FormState String) ("email") (some ("x"))
        = (⟨fun _ => true, []⟩ : FormState String)
      ∧ countField ("email")
          (fill_form (⟨fun _ => false, []⟩ : FormState String)
            [(("email"), some ("a")), (("gender"), some ("Male"))]).log ≤ 1 :=
  ⟨C4_fill_form_spec.2.1 _ ("email") ("x") rfl,
    C4_fill_form_spec.2.2.2 (fun _ => false)
      [(("email"), some ("a")), (("gender"), some ("Male"))] ("email") (by decide)⟩

/-- The Selenium exceptions caught by `verify_submission`. -/
inductive SelException where
  | timeoutException
  | noSuchElementException
deriving DecidableEq, Repr

/-- The environment of one `verify_submission` call: whether the success
modal becomes visible within the bounded wait, and whether the close
button can then be found. -/
structure VerifyEnv where
  modalVisibleWithinTimeout : Bool
  closeButtonPresent : Bool

/-- The bounded wait for the success modal title: raises
`TimeoutException` when the modal does not become visible in time. -/
def wait_until_modal_visible (e : VerifyEnv) : Except SelException Unit :=
  if e.modalVisibleWithinTimeout then .ok () else .error .timeoutException

/-- `find_element("#closeLargeModal").click()`: raises
`NoSuchElementException` when the button is absent. -/
def click_close_button (e : VerifyEnv) : Except SelException Unit :=
  if e.closeButtonPresent then .ok () else .error .noSuchElementException

/-- `verify_submission`: run the bounded wait then the close click inside
`try`, returning `False` on `TimeoutException` or `NoSuchElementException`
and `True` otherwise.  Both exception kinds that the body can raise are
caught, so the call always returns a boolean. -/
def verify_submission (e : VerifyEnv) : Except SelException Bool :=
  match (do wait_until_modal_visible e; click_close_button e :
      Except SelException Unit) with
  | .ok _ => .ok true
  | .error .timeoutException => .ok false
  | .error .noSuchElementException => .ok false

/-- C5: `verify_submission` always returns a boolean (never propagates an
exception); when the success modal does not become visible within the
timeout it returns false, and it returns true only when the success
indicator was observed. -/
theorem C5_verify_submission_spec (e : VerifyEnv) :
    (∃ b, verify_submission e = .ok b)
    ∧ (e.modalVisibleWithinTimeout = false → verify_submission e = .ok false)
    ∧ (verify_submission e = .ok true → e.modalVisibleWithinTimeout = true) := by
  rcases e with ⟨m, c⟩
  cases m <;> cases c <;> refine ⟨⟨_, rfl⟩, ?_, ?_⟩ <;> intro h <;>
    first
      | rfl
      | exact nomatch h

/-- Witness for C5: with the modal never appearing, `verify_submission`
concretely returns false. -/
theorem C5_witness : verify_submission ⟨false, false⟩ = .ok false :=
  (C5_verify_submission_spec ⟨false, false⟩).2.1 rfl

/-- Python errors arising in the rejected-submission cleanup path of
`field_validation`. -/
inductive PyError where
  | attributeError
  | typeError
deriving DecidableEq, Repr

/-- The element attributes that `load_elements` sets on the page object;
`getattr(self, field_name)` succeeds exactly for these. -/
def page_element_attrs : List String :=
  ["alphabet", "first_name", "last_name", "email", "mobile", "date_of_birth",
    "picture", "subjects", "dropdown_options_xpath", "state", "city",
    "submit_button"]

/-- Number of positional arguments (besides `self`) accepted by
`RegistrationFormPage.reset`, declared `def reset(self):`. -/
def reset_arity : Nat := 0

/-- Calling `page.reset` with `args` positional arguments: Python raises
`TypeError` unless the count matches the declaration. -/
def call_reset (args : Nat) : Except PyError Unit :=
  if args = reset_arity then .ok () else .error .typeError

/-- `clear_field(field_name)` begins with `getattr(self, field_name)`,
which raises `AttributeError` when `load_elements` never set that
attribute. -/
def clear_field (field_name : String) : Except PyError Unit :=
  if field_name ∈ page_element_attrs then .ok () else .error .attributeError

/-- The rejected-submission cleanup loop of `field_validation`: for each
overridden field, try `clear_field`; on `AttributeError` call
`page.reset(False)` — one positional argument — and stop. -/
def clear_or_reset (override_fields : List String) : Except PyError Unit :=
  match override_fields with
  | [] => .ok ()
  | field :: rest =>
    match clear_field field with
    | .ok _ => clear_or_reset rest
    | .error PyError.attributeError => call_reset 1
    | .error e => .error e

/-- C6: evaluating the cleanup at the failing input.  The gender control is
never stored as a page attribute, so clearing it raises `AttributeError`;
the intended fallback `page.reset(False)` then passes one argument to a
method declared with none, so the cleanup ends in `TypeError` instead of a
successful full page reset. -/
theorem C6_reset_fallback_type_error :
    clear_or_reset [("gender")] = Except.error PyError.typeError
      ∧ ("gender") ∉ page_element_attrs :=
  ⟨rfl, by decide⟩

/-- The `gender_map` dispatch table of `select_gender`. -/
def gender_map : List (String × String) :=
  [(("Male"), ("label[for=\x27gender-radio-1\x27]")),
    (("Female"), ("label[for=\x27gender-radio-2\x27]")),
    (("Other"), ("label[for=\x27gender-radio-3\x27]"))]

/-- `select_gender`: click the mapped radio label if the gender is a key of
`gender_map`, otherwise do nothing.  The returned list is the sequence of
clicked selectors. -/
def select_gender (gender : String) : List String :=
  match gender_map.lookup gender with
  | some selector => [selector]
  | none => []

/-- The `hobby_map` dispatch table of `select_hobbies`. -/
def hobby_map : List (String × String) :=
  [(("Sports"), ("label[for=\x27hobbies-checkbox-1\x27]")),
    (("Reading"), ("label[for=\x27hobbies-checkbox-2\x27]")),
    (("Music"), ("label[for=\x27hobbies-checkbox-3\x27]"))]

/-- `select_hobbies`: for each hobby in order, click the mapped checkbox
label if known, silently skipping unknown hobbies. -/
def select_hobbies (hobbies : List String) : List String :=
  hobbies.flatMap (fun hobby =>
    match hobby_map.lookup hobby with
    | some selector => [selector]
    | none => [])

/-- C10: a gender outside {Male, Female, Other} causes no click and returns
normally, and a hobby outside {Sports, Reading, Music} is skipped silently:
unknown domain values are ignored without error and without interaction. -/
theorem C10_unknown_values_ignored :
    (∀ gender : String, gender ∉ [("Male"), ("Female"), ("Other")] →
        select_gender gender = [])
    ∧ (∀ (pre post : List String) (hobby : String),
        hobby ∉ [("Sports"), ("Reading"), ("Music")] →
          select_hobbies (pre ++ hobby :: post) = select_hobbies (pre ++ post)) := by
  constructor
  · intro gender h
    simp only [List.mem_cons, List.not_mem_nil, or_false, not_or] at h
    obtain ⟨h1, h2, h3⟩ := h
    have b1 : (gender == "Male") = false := beq_eq_false_iff_ne.mpr h1
    have b2 : (gender == "Female") = false := beq_eq_false_iff_ne.mpr h2
    have b3 : (gender == "Other") = false := beq_eq_false_iff_ne.mpr h3
    simp [select_gender, gender_map, List.lookup, b1, b2, b3]
  · intro pre post hobby h
    simp only [List.mem_cons, List.not_mem_nil, or_false, not_or] at h
    obtain ⟨h1, h2, h3⟩ := h
    have b1 : (hobby == "Sports") = false := beq_eq_false_iff_ne.mpr h1
    have b2 : (hobby == "Reading") = false := beq_eq_false_iff_ne.mpr h2
    have b3 : (hobby == "Music") = false := beq_eq_false_iff_ne.mpr h3
    simp [select_hobbies, hobby_map, List.lookup, b1, b2, b3]

/-- Witness for C10 at concrete inputs: an unknown gender produces no click
and an unknown hobby in a list contributes no click. -/
theorem C10_witness :
    select_gender ("Helicopter") = []
      ∧ select_hobbies ([("Sports")] ++ ("Cooking") :: [])
          = select_hobbies ([("Sports")] ++ []) :=
  ⟨C10_unknown_values_ignored.1 ("Helicopter") (by decide),
    C10_unknown_values_ignored.2 [("Sports")] [] ("Cooking") (by decide)⟩

/-- Unicode general categories, as used by the category filters of the
Hypothesis `st.characters` strategies and by Python's per-character
classification. -/
inductive GC where
  | Lu | Ll | Lt | Lm | Lo
  | Mn | Mc | Me
  | Nd | Nl | No
  | Pc | Pd | Ps | Pe | Pi | Pf | Po
  | Sm | Sc | Sk | So
  | Zs | Zl | Zp
  | Cc | Cf | Cs | Co | Cn
deriving DecidableEq, Repr

/-- Letter categories (group "L"). -/
def GC.isLetterCat : GC → Bool
  | .Lu | .Ll | .Lt | .Lm | .Lo => true
  | _ => false

/-- Number categories (group "N"). -/
def GC.isNumberCat : GC → Bool
  | .Nd | .Nl | .No => true
  | _ => false

/-- Punctuation categories (group "P"). -/
def GC.isPunctCat : GC → Bool
  | .Pc | .Pd | .Ps | .Pe | .Pi | .Pf | .Po => true
  | _ => false

/-- Symbol categories (group "S"). -/
def GC.isSymbolCat : GC → Bool
  | .Sm | .Sc | .Sk | .So => true
  | _ => false

/-- Separator categories (group "Z"). -/
def GC.isSepCat : GC → Bool
  | .Zs | .Zl | .Zp => true
  | _ => false

/-- Other categories (group "C"), excluded by `exclude_categories=("C",)`. -/
def GC.isOtherCat : GC → Bool
  | .Cc | .Cf | .Cs | .Co | .Cn => true
  | _ => false

/-- Python `c.isalpha()`: the character's general category is a letter
category, for a given classification `cat` of the code points. -/
def pyIsAlpha (cat : Char → GC) (c : Char) : Bool :=
  (cat c).isLetterCat

/-- The control characters that Python `str.strip()` removes in addition
to the separator categories. -/
def pySpaceControls : List Char :=
  ['\t', '\n', '\x0b', '\x0c', '\r', '\x1c', '\x1d', '\x1e', '\x1f', '\x85']

/-- Python whitespace test used by `str.strip()`. -/
def pyIsSpace (cat : Char → GC) (c : Char) : Bool :=
  (cat c).isSepCat || decide (c ∈ pySpaceControls)

/-- Remove the longest leading and trailing runs of characters satisfying
`p`. -/
def pyStripList (p : Char → Bool) (l : List Char) : List Char :=
  ((l.dropWhile p).reverse.dropWhile p).reverse

/-- Python `str.strip()` with no arguments. -/
def pyStrip (cat : Char → GC) (t : List Char) : List Char :=
  pyStripList (pyIsSpace cat) t

/-- The `include_characters="-' "` set shared by the name/address
strategies. -/
def nameIncludeChars : List Char := ['-', '\x27', ' ']

/-- The `st.characters(min_codepoint=0x20, max_codepoint=0xFFFF,
categories=("Ll","Lu","Nd"), include_characters="-' ")` alphabet of
`valid_name_or_address`. -/
def nameAlphabetChar (cat : Char → GC) (c : Char) : Bool :=
  (decide (0x20 ≤ c.toNat) && decide (c.toNat ≤ 0xFFFF)
      && (cat c == GC.Ll || cat c == GC.Lu || cat c == GC.Nd))
    || decide (c ∈ nameIncludeChars)

/-- The `st.characters(..., categories=("S","P","N"), include_characters="-' ")`
alphabet of the letter-free branch of `invalid_name_or_address`. -/
def noLetterAlphabetChar (cat : Char → GC) (c : Char) : Bool :=
  (decide (0x20 ≤ c.toNat) && decide (c.toNat ≤ 0xFFFF)
      && ((cat c).isSymbolCat || (cat c).isPunctCat || (cat c).isNumberCat))
    || decide (c ∈ nameIncludeChars)

/-- The `st.characters(..., exclude_categories=("C",))` alphabet of the
extremely-long branch of `invalid_name_or_address`. -/
def bmpNonControlChar (cat : Char → GC) (c : Char) : Bool :=
  decide (0x20 ≤ c.toNat) && decide (c.toNat ≤ 0xFFFF)
    && !(cat c).isOtherCat

/-- The set of values producible by the `valid_name_or_address` strategy:
a string of 1–300 characters from the name alphabet, kept only if it
contains an alphabetic character, then whitespace-stripped. -/
def valid_name_or_address (cat : Char → GC) : Set (List Char) :=
  { s | ∃ t : List Char,
      (∀ c ∈ t, nameAlphabetChar cat c = true)
      ∧ 1 ≤ t.length ∧ t.length ≤ 300
      ∧ (∃ c ∈ t, pyIsAlpha cat c = true)
      ∧ s = pyStrip cat t }

/-- The set of values producible by the `invalid_name_or_address`
strategy: `none`, or a stripped nonempty letter-free string, or a stripped
string of at least 300 non-control characters. -/
def invalid_name_or_address (cat : Char → GC) : Set (Option (List Char)) :=
  { v | v = none
      ∨ (∃ t, (∀ c ∈ t, noLetterAlphabetChar cat c = true) ∧ 1 ≤ t.length
          ∧ v = some (pyStrip cat t))
      ∨ (∃ t, (∀ c ∈ t, bmpNonControlChar cat c = true) ∧ 300 ≤ t.length
          ∧ v = some (pyStrip cat t)) }

/-- A concrete general-category classification of the code points, correct
on the ASCII range (all non-ASCII code points are mapped to `Cn`); used
only to evaluate the generator models at concrete inputs. -/
def asciiGC (c : Char) : GC :=
  if c.toNat < 0x20 ∨ c.toNat = 0x7F then .Cc
  else if c.toNat = 0x20 then .Zs
  else if 0x30 ≤ c.toNat ∧ c.toNat ≤ 0x39 then .Nd
  else if 0x41 ≤ c.toNat ∧ c.toNat ≤ 0x5A then .Lu
  else if 0x61 ≤ c.toNat ∧ c.toNat ≤ 0x7A then .Ll
  else if c.toNat = 0x24 then .Sc
  else if c.toNat = 0x2B ∨ c.toNat = 0x3C ∨ c.toNat = 0x3D ∨ c.toNat = 0x3E
      ∨ c.toNat = 0x7C ∨ c.toNat = 0x7E then .Sm
  else if c.toNat = 0x5E ∨ c.toNat = 0x60 then .Sk
  else if c.toNat = 0x2D then .Pd
  else if c.toNat = 0x28 ∨ c.toNat = 0x5B ∨ c.toNat = 0x7B then .Ps
  else if c.toNat = 0x29 ∨ c.toNat = 0x5D ∨ c.toNat = 0x7D then .Pe
  else if c.toNat = 0x5F then .Pc
  else if c.toNat ≤ 0x7E then .Po
  else .Cn

theorem mem_of_mem_dropWhile (p : Char → Bool) (l : List Char) (c : Char)
    (h : c ∈ l.dropWhile p) : c ∈ l :=
  (List.dropWhile_sublist p).subset h

theorem mem_dropWhile_of_not (p : Char → Bool) (l : List Char) (c : Char)
    (hc : c ∈ l) (hp : p c = false) : c ∈ l.dropWhile p := by
  induction l with
  | nil => cases hc
  | cons a t ih =>
    rw [List.dropWhile_cons]
    rcases List.mem_cons.mp hc with rfl | hct
    · rw [hp]
      exact List.mem_cons_self _ _
    · split
      · exact ih hct
      · exact List.mem_cons_of_mem _ hct

theorem mem_of_mem_pyStripList (p : Char → Bool) (l : List Char) (c : Char)
    (h : c ∈ pyStripList p l) : c ∈ l := by
  unfold pyStripList at h
  have h1 := mem_of_mem_dropWhile p _ c (List.mem_reverse.mp h)
  exact mem_of_mem_dropWhile p l c (List.mem_reverse.mp h1)

theorem mem_pyStripList_of_not (p : Char → Bool) (l : List Char) (c : Char)
    (hc : c ∈ l) (hp : p c = false) : c ∈ pyStripList p l := by
  unfold pyStripList
  rw [List.mem_reverse]
  exact mem_dropWhile_of_not p _ c
    (List.mem_reverse.mpr (mem_dropWhile_of_not p l c hc hp)) hp

theorem letter_not_spn (g : GC) (h : g.isLetterCat = true) :
    g.isSymbolCat = false ∧ g.isPunctCat = false ∧ g.isNumberCat = false := by
  cases g <;> first | exact ⟨rfl, rfl, rfl⟩ | exact absurd h (by decide)

theorem letter_not_sep (g : GC) (h : g.isLetterCat = true) :
    g.isSepCat = false := by
  cases g <;> first | rfl | exact absurd h (by decide)

theorem pyIsAlpha_eq (cat : Char → GC) (c : Char) :
    pyIsAlpha cat c = (cat c).isLetterCat := rfl

/-- Stripping removes nothing from a list none of whose characters satisfy
the whitespace test. -/
theorem pyStripList_eq_self (p : Char → Bool) (l : List Char)
    (h : ∀ c ∈ l, p c = false) : pyStripList p l = l := by
  have hd : ∀ (m : List Char), (∀ c ∈ m, p c = false) → m.dropWhile p = m := by
    intro m hm
    cases m with
    | nil => rfl
    | cons a t => rw [List.dropWhile_cons, hm a (List.mem_cons_self a t)]; simp
  unfold pyStripList
  rw [hd l h, hd _ (fun c hc => h c (List.mem_reverse.mp hc)),
    List.reverse_reverse]

/-- An alphabetic character is not stripped as whitespace, provided the
classification does not mark the control whitespace characters as
letters. -/
theorem alpha_not_space (cat : Char → GC)
    (hCtl : ∀ c ∈ pySpaceControls, (cat c).isLetterCat = false)
    (c : Char) (ha : pyIsAlpha cat c = true) : pyIsSpace cat c = false := by
  rw [pyIsAlpha_eq] at ha
  unfold pyIsSpace
  rw [letter_not_sep _ ha, Bool.false_or]
  by_cases hm : c ∈ pySpaceControls
  · rw [hCtl c hm] at ha
    cases ha
  · exact decide_eq_false hm

/-- C3 counterexample: the 300-character string of letters `a` is
producible both by the valid name/address generator (raw length 300 ≤ 300,
all letters, stripping is the identity) and by the ≥300-length branch of
the invalid generator, so the two strategies are not disjoint. -/
theorem C3_counterexample :
    List.replicate 300 'a' ∈ valid_name_or_address asciiGC
      ∧ some (List.replicate 300 'a') ∈ invalid_name_or_address asciiGC := by
  have hstrip : pyStrip asciiGC (List.replicate 300 'a') = List.replicate 300 'a' :=
    pyStripList_eq_self _ _ (fun c hc => by rw [List.eq_of_mem_replicate hc]; decide)
  have hmem : 'a' ∈ List.replicate 300 'a' := List.mem_replicate.mpr ⟨by decide, rfl⟩
  constructor
  · refine ⟨List.replicate 300 'a', ?_,
      by rw [List.length_replicate]; decide, by rw [List.length_replicate],
      ⟨'a', hmem, by decide⟩, hstrip.symm⟩
    intro c hc
    rw [List.eq_of_mem_replicate hc]
    decide
  · refine Or.inr (Or.inr ⟨List.replicate 300 'a', ?_,
      by rw [List.length_replicate], by rw [hstrip]⟩)
    intro c hc
    rw [List.eq_of_mem_replicate hc]
    decide

/-- C3 (amended): for the free-text/address pair, every producible valid
value retains at least one alphabetic character, hence is neither null nor
any value of the letter-free invalid branch — the valid generator is
disjoint from those two invalid branches.  (Full disjointness fails: the
≥300-length invalid branch also produces all-letter strings of length 300,
see the counterexample.)  The hypotheses state that the classification
does not call the include characters or the control whitespace letters,
as in the real Unicode database. -/
theorem C3_amended_partial_disjoint (cat : Char → GC)
    (hInc : ∀ c ∈ nameIncludeChars, (cat c).isLetterCat = false)
    (hCtl : ∀ c ∈ pySpaceControls, (cat c).isLetterCat = false)
    (s : List Char) (hs : s ∈ valid_name_or_address cat) :
    (∃ c ∈ s, pyIsAlpha cat c = true)
    ∧ some s ≠ none
    ∧ ∀ t, (∀ c ∈ t, noLetterAlphabetChar cat c = true) →
        s ≠ pyStrip cat t := by
  obtain ⟨t, hchars, _, _, ⟨c0, hc0t, hc0a⟩, rfl⟩ := hs
  have hsurv : c0 ∈ pyStrip cat t :=
    mem_pyStripList_of_not _ t c0 hc0t (alpha_not_space cat hCtl c0 hc0a)
  refine ⟨⟨c0, hsurv, hc0a⟩, by simp, ?_⟩
  intro u hu heq
  have hc0u : c0 ∈ u := mem_of_mem_pyStripList _ u c0 (heq ▸ hsurv)
  have h2 := hu c0 hc0u
  unfold noLetterAlphabetChar at h2
  rw [pyIsAlpha_eq] at hc0a
  rcases Bool.or_eq_true_iff.mp h2 with h3 | h3
  · obtain ⟨hS, hP, hN⟩ := letter_not_spn (cat c0) hc0a
    simp only [Bool.and_eq_true] at h3
    have hspn := h3.2
    rw [hS, hP, hN] at hspn
    cases hspn
  · have hi := hInc c0 (of_decide_eq_true h3)
    rw [hc0a] at hi
    cases hi

/-- Witness for C3 (amended) at the concrete classification `asciiGC` and
the concrete valid value `['a']`. -/
theorem C3_amended_witness :
    (∃ c ∈ ['a'], pyIsAlpha asciiGC c = true)
    ∧ some ['a'] ≠ none
    ∧ ∀ t, (∀ c ∈ t, noLetterAlphabetChar asciiGC c = true) →
        ['a'] ≠ pyStrip asciiGC t :=
  C3_amended_partial_disjoint asciiGC (by decide) (by decide) ['a']
    ⟨['a'], by decide, by decide, by decide, ⟨'a', by decide, by decide⟩, by decide⟩

/-- The `digits` alphabet of the mobile strategies. -/
def pyDigits : List Char := ("1234567890").toList

/-- The `st.characters(min_codepoint=0x20, max_codepoint=0xFFFF,
exclude_categories=("Nd","C"))` alphabet of the non-numeric branch of
`invalid_mobile`. -/
def mobileNonDigitChar (cat : Char → GC) (c : Char) : Bool :=
  decide (0x20 ≤ c.toNat) && decide (c.toNat ≤ 0xFFFF)
    && !(cat c == GC.Nd) && !(cat c).isOtherCat

/-- The set of values producible by `valid_mobile`:
`st.text(alphabet=digits, min_size=10, max_size=10)`. -/
def valid_mobile : Set (List Char) :=
  { s | s.length = 10 ∧ ∀ c ∈ s, c ∈ pyDigits }

/-- The set of values producible by `invalid_mobile`: a digit string of
1–9 characters, or a nonempty string of up to 10 characters none of which
is in category Nd, or `none`. -/
def invalid_mobile (cat : Char → GC) : Set (Option (List Char)) :=
  { v | (∃ s, 1 ≤ s.length ∧ s.length ≤ 9 ∧ (∀ c ∈ s, c ∈ pyDigits) ∧ v = some s)
      ∨ (∃ s, 1 ≤ s.length ∧ s.length ≤ 10
          ∧ (∀ c ∈ s, mobileNonDigitChar cat c = true) ∧ v = some s)
      ∨ v = none }

/-- C8: every value produced by the valid mobile generator is a string of
exactly 10 digit characters (leading zeros permitted, since `0` is in the
alphabet), and every value produced by the invalid mobile generator is
null, a digit string of length at most 9, or a string containing at least
one non-digit character.  The hypothesis states that the classification
marks the ten digit characters as Nd, as the real Unicode database does. -/
theorem C8_mobile_strategies_spec (cat : Char → GC)
    (hdig : ∀ c ∈ pyDigits, cat c = GC.Nd) :
    (∀ s ∈ valid_mobile, s.length = 10 ∧ ∀ c ∈ s, c ∈ pyDigits)
    ∧ (∀ v ∈ invalid_mobile cat,
        v = none
        ∨ (∃ s, v = some s ∧ s.length ≤ 9 ∧ ∀ c ∈ s, c ∈ pyDigits)
        ∨ (∃ s, v = some s ∧ ∃ c ∈ s, c ∉ pyDigits)) := by
  refine ⟨fun s hs => hs, ?_⟩
  rintro v (⟨s, h1, h9, hd, rfl⟩ | ⟨s, h1, h10, hnd, rfl⟩ | rfl)
  · exact Or.inr (Or.inl ⟨s, rfl, h9, hd⟩)
  · refine Or.inr (Or.inr ⟨s, rfl, ?_⟩)
    have hne : s ≠ [] := by
      intro h
      rw [h] at h1
      cases h1
    obtain ⟨c, hc⟩ := List.exists_mem_of_ne_nil s hne
    refine ⟨c, hc, fun hcd => ?_⟩
    have heq := hdig c hcd
    have h2 := hnd c hc
    rw [mobileNonDigitChar, heq] at h2
    simp at h2
  · exact Or.inl rfl

/-- Witness for C8 at the concrete classification `asciiGC`, the concrete
valid value "1234567890" and the concrete invalid value "?". -/
theorem C8_witness :
    (['1', '2', '3', '4', '5', '6', '7', '8', '9', '0'].length = 10
        ∧ ∀ c ∈ ['1', '2', '3', '4', '5', '6', '7', '8', '9', '0'], c ∈ pyDigits)
    ∧ (some ['?'] = none
        ∨ (∃ s, some ['?'] = some s ∧ s.length ≤ 9 ∧ ∀ c ∈ s, c ∈ pyDigits)
        ∨ (∃ s, some ['?'] = some s ∧ ∃ c ∈ s, c ∉ pyDigits)) :=
  ⟨(C8_mobile_strategies_spec asciiGC (by decide)).1 _ ⟨by decide, by decide⟩,
    (C8_mobile_strategies_spec asciiGC (by decide)).2 (some ['?'])
      (Or.inr (Or.inl ⟨['?'], by decide, by decide, by decide, rfl⟩))⟩

/-- `timedelta(days=365.25*y).days` for the multipliers used by the
date-of-birth strategy: 365.25 is 1461/4, and both 1461*60/4 and 1461*16/4
are integers, so the float arithmetic in the source is exact. -/
def days_in_years (y : Int) : Int := 1461 * y / 4

/-- The set of dates (as proleptic-Gregorian ordinals,
`datetime.date.toordinal`) producible by `valid_date_of_birth`:
`st.dates` between `(now - 365.25*60 days).date()` and
`(now - 365.25*16 days).date()`; subtracting a whole number of days keeps
the time of day, so taking `.date()` subtracts exactly that many days from
today's ordinal. -/
def valid_date_of_birth (today : Int) : Set Int :=
  Set.Icc (today - days_in_years 60) (today - days_in_years 16)

/-- `datetime.date.max.toordinal()`, the default upper bound of
`st.dates`. -/
def date_max_ordinal : Int := 3652059

/-- The set of dates producible by `invalid_date_of_birth`:
`st.dates(min_value=datetime.today().date())`. -/
def invalid_date_of_birth (today : Int) : Set Int :=
  Set.Icc today date_max_ordinal

/-- C9: every date produced by the valid date-of-birth generator lies
between 60 years and 16 years before the current date, a year counted as
365.25 days (equivalently, the distance in quarter-days lies between
16*1461 and 60*1461); and every date produced by the invalid generator is
today or later. -/
theorem C9_date_strategies_spec (today d : Int) :
    (d ∈ valid_date_of_birth today
        ↔ 16 * 1461 ≤ 4 * (today - d) ∧ 4 * (today - d) ≤ 60 * 1461)
    ∧ (d ∈ invalid_date_of_birth today → today ≤ d) := by
  have h60 : days_in_years 60 = 21915 := by decide
  have h16 : days_in_years 16 = 5844 := by decide
  constructor
  · simp only [valid_date_of_birth, Set.mem_Icc, h60, h16]
    constructor <;> intro h <;> constructor <;> omega
  · simp only [invalid_date_of_birth, Set.mem_Icc]
    exact fun h => h.1

/-- Witness for C9 at concrete ordinals: today = 800000, a valid birth
date 10000 days earlier, and an invalid date 123 days in the future. -/
theorem C9_witness :
    (16 * 1461 ≤ 4 * ((800000 : Int) - 790000)
        ∧ 4 * ((800000 : Int) - 790000) ≤ 60 * 1461)
    ∧ (800000 : Int) ≤ 800123 :=
  ⟨(C9_date_strategies_spec 800000 790000).1.mp
      (by constructor <;> norm_num [valid_date_of_birth, days_in_years]),
    (C9_date_strategies_spec 800000 800123).2
      (by constructor <;> norm_num [invalid_date_of_birth, date_max_ordinal])⟩

end SDET
